import Mathlib

/-!
Shallow embedding of the ANSE mediation core (capability catalog, policy
evaluator, dispatcher, event ledger, isolation layer, audit sink, protocol
front-end) translated from the Python sources under src/anse/, together with
theorems settling the specification claims.

Modelling conventions used throughout:
- Python dicts are association lists (`List (String × _)`) with `alookup` and
  `setKV`; `setKV` replaces in place and appends missing keys at the end,
  matching CPython dict insertion-order semantics.
- Wall-clock timestamps (`time.time()`, `datetime.utcnow()`) are `Int`
  seconds threaded explicitly as a `now` argument.
- Python floats used only as additive budgets/durations are modelled as `Rat`
  (they are added and compared, never rounded, in the modelled code).
- An async handler is a function from its arguments to a `HandlerRun`
  (a finite duration plus either a returned value or a raised exception);
  `asyncio.wait_for` compares the duration against the timeout bound.
-/

namespace ANSE

/-- JSON-like values: the data model of events, tool arguments and results
(`json` module values exchanged by the Python code). Numbers are restricted
to integers, which covers every value the modelled code constructs. -/
inductive Json where
  | null
  | bool (b : Bool)
  | num (n : Int)
  | str (s : String)
  | arr (elems : List Json)
  | obj (fields : List (String × Json))

/-- Lookup in an association list modelling a Python dict (`d.get(k)`). -/
def alookup {β : Type} (k : String) : List (String × β) → Option β
  | [] => none
  | p :: rest => if p.1 = k then some p.2 else alookup k rest

/-- Key assignment in an association list modelling a Python dict
(`d[k] = v`): replaces in place, appends at the end when the key is new. -/
def setKV {β : Type} (k : String) (v : β) : List (String × β) → List (String × β)
  | [] => [(k, v)]
  | p :: rest => if p.1 = k then (k, v) :: rest else p :: setKV k v rest

theorem alookup_setKV_self {β : Type} (k : String) (v : β) (l : List (String × β)) :
    alookup k (setKV k v l) = some v := by
  induction l with
  | nil => simp [alookup, setKV]
  | cons p rest ih =>
    by_cases h : p.1 = k
    · simp [alookup, setKV, h]
    · simp [alookup, setKV, h, ih]

theorem alookup_setKV_ne {β : Type} (k k2 : String) (v : β) (l : List (String × β))
    (h : k ≠ k2) : alookup k2 (setKV k v l) = alookup k2 l := by
  induction l with
  | nil => simp [alookup, setKV, h]
  | cons p rest ih =>
    by_cases hp : p.1 = k
    · simp [alookup, setKV, hp, h, hp ▸ h]
    · simp only [setKV, hp, if_false, alookup]
      by_cases hp2 : p.1 = k2
      · simp [hp2]
      · simp [hp2, ih]

/-- Field access on a JSON object (`event.get(k)`); `none` both for a missing
key and for a non-object value. -/
def Json.objGet : Json → String → Option Json
  | .obj kvs, k => alookup k kvs
  | _, _ => none

/-- Key membership test on a JSON object (`k in event`). -/
def Json.objHasKey (j : Json) (k : String) : Bool :=
  (j.objGet k).isSome

/-- Field assignment on a JSON object (`event[k] = v`). -/
def Json.objSet : Json → String → Json → Json
  | .obj kvs, k, v => .obj (setKV k v kvs)
  | j, _, _ => j

/-- Python truthiness of the string values the modelled code tests with
`if not tool:` — only the empty string is falsy. -/
def pyStrTruthy (s : String) : Bool := s ≠ ""

/-- The Python comparison `e.get("agent_id") == agent_id` where `agent_id`
is a string: true exactly when the value is that string (`None == s` and
`non_str == s` are both `False` in Python). -/
def isPyStrEq : Option Json → String → Bool
  | some (.str s), a => s = a
  | _, _ => false

/-- The single-quote character (avoids quote literals inside strings). -/
def sq : String := String.mk [Char.ofNat 39]

/-- The double-quote character. -/
def dq : String := String.mk [Char.ofNat 34]

/-- Python `repr` of a string, as produced by `str(KeyError(msg))` (a
`KeyError` prints the `repr` of its key): wrapped in double quotes when the
text contains a single quote but no double quote, else in single quotes.
Escaping of further characters is not needed for the strings the modelled
code builds. -/
def pyReprStr (s : String) : String :=
  if s.data.contains (Char.ofNat 39) && !(s.data.contains (Char.ofNat 34)) then dq ++ s ++ dq
  else sq ++ s ++ sq

/-! ## Policy Evaluator — src/anse/safety/permission.py

The policy document (loaded from YAML in `PermissionManager.__init__`) is
modelled by its two keys read by the claims under scrutiny:
`default_scopes` and `sensitive_scopes`. -/

structure PermissionManager where
  default_scopes : List String
  sensitive_scopes : List String
  agent_scopes : List (String × List String)

namespace PermissionManager

/-- `PermissionManager.register_agent`: record an agent with the given
scopes, defaulting to the policy's `default_scopes`. Scope sets are lists
used only through membership, mirroring Python sets. -/
def register_agent (pm : PermissionManager) (agent_id : String)
    (scopes : Option (List String)) : PermissionManager :=
  let sc := scopes.getD pm.default_scopes
  { pm with agent_scopes := setKV agent_id sc pm.agent_scopes }

/-- `PermissionManager.check_permission`: auto-registers an unknown agent
with default scopes, then allows unless a required scope is given, is in the
sensitive set, and is not held by the agent. Returns the (possibly extended)
manager together with `(allowed, reason)`. -/
def check_permission (pm0 : PermissionManager) (agent_id tool_name : String)
    (required_scope : Option String) : PermissionManager × Bool × Option String :=
  let pm := if (alookup agent_id pm0.agent_scopes).isSome then pm0
            else pm0.register_agent agent_id none
  let agentScopes := (alookup agent_id pm.agent_scopes).getD []
  match required_scope with
  | none => (pm, true, none)
  | some s =>
    if s ∈ pm.sensitive_scopes ∧ s ∉ agentScopes then
      (pm, false, some ("Missing required scope: " ++ s))
    else
      (pm, true, none)

/-- `PermissionManager.grant_scope`: auto-registers an unknown agent, then
adds the scope to its set (idempotently, as Python `set.add`). -/
def grant_scope (pm0 : PermissionManager) (agent_id scope : String) : PermissionManager :=
  let pm := if (alookup agent_id pm0.agent_scopes).isSome then pm0
            else pm0.register_agent agent_id none
  let agentScopes := (alookup agent_id pm.agent_scopes).getD []
  let agentScopes := if scope ∈ agentScopes then agentScopes else agentScopes ++ [scope]
  { pm with agent_scopes := setKV agent_id agentScopes pm.agent_scopes }

/-- The scope set `check_permission` effectively evaluates against: the
agent's registered scopes, or the policy defaults for an agent seen for the
first time (auto-registration). -/
def effective_scopes (pm : PermissionManager) (agent_id : String) : List String :=
  (alookup agent_id pm.agent_scopes).getD pm.default_scopes

theorem check_permission_scopes (pm : PermissionManager) (agent_id : String) :
    (alookup agent_id
      (if (alookup agent_id pm.agent_scopes).isSome then pm
       else pm.register_agent agent_id none).agent_scopes).getD []
      = pm.effective_scopes agent_id := by
  rcases h : alookup agent_id pm.agent_scopes with _ | sc
  · simp [h, register_agent, effective_scopes, alookup_setKV_self]
  · simp [h, effective_scopes]

theorem grant_scope_mem (pm : PermissionManager) (agent_id scope : String) :
    alookup agent_id (pm.grant_scope agent_id scope).agent_scopes
      = some ((if scope ∈ pm.effective_scopes agent_id then pm.effective_scopes agent_id
               else pm.effective_scopes agent_id ++ [scope])) := by
  unfold grant_scope
  rcases h : alookup agent_id pm.agent_scopes with _ | sc
  · simp [h, register_agent, effective_scopes, alookup_setKV_self]
  · simp [h, effective_scopes, alookup_setKV_self]

end PermissionManager

/-- The scenario policy of the spec: `sensitive_scopes=["camera"]`, empty
default scopes, no agents registered yet. -/
def pmCamera : PermissionManager :=
  { default_scopes := [], sensitive_scopes := ["camera"], agent_scopes := [] }

/-- C1: for every agent, tool and required scope, `check_permission` allows
(with no reason) unless the required scope is non-null, in the sensitive set
and missing from the agent's (effective) granted scopes; in that case it
denies with reason `Missing required scope: <scope>`; and after
`grant_scope(agent, scope)` the same check allows. -/
theorem C1_check_permission_contract (pm : PermissionManager)
    (agent_id tool_name : String) (required_scope : Option String) :
    ((pm.check_permission agent_id tool_name required_scope).2 =
      match required_scope with
      | none => (true, none)
      | some s =>
        if s ∈ pm.sensitive_scopes ∧ s ∉ pm.effective_scopes agent_id then
          (false, some ("Missing required scope: " ++ s))
        else (true, none))
    ∧ (∀ s, required_scope = some s →
        ((pm.grant_scope agent_id s).check_permission agent_id tool_name
            required_scope).2 = (true, none)) := by
  constructor
  · unfold PermissionManager.check_permission
    rcases required_scope with _ | s
    · simp
    · simp only []
      rw [PermissionManager.check_permission_scopes]
      have hsens : (pm.register_agent agent_id none).sensitive_scopes = pm.sensitive_scopes := rfl
      by_cases hreg : (alookup agent_id pm.agent_scopes).isSome <;>
        simp [hreg, hsens] <;>
        by_cases hc : s ∈ pm.sensitive_scopes ∧ s ∉ pm.effective_scopes agent_id <;>
        simp [hc]
  · rintro s rfl
    unfold PermissionManager.check_permission
    have hmem := PermissionManager.grant_scope_mem pm agent_id s
    have hsens : (pm.grant_scope agent_id s).sensitive_scopes = pm.sensitive_scopes := by
      unfold PermissionManager.grant_scope
      by_cases hreg : (alookup agent_id pm.agent_scopes).isSome <;> simp [hreg] <;> rfl
    have hs : s ∈ (if s ∈ pm.effective_scopes agent_id then pm.effective_scopes agent_id
        else pm.effective_scopes agent_id ++ [s]) := by
      by_cases h : s ∈ pm.effective_scopes agent_id <;> simp [h]
    simp [hmem, hs]

/-! ## Event Ledger — src/anse/world_model.py -/

/-- Ring-buffer append (`collections.deque(maxlen=cap)`): append at the end,
silently evicting the oldest elements beyond capacity. -/
def ringAppend {α : Type} (cap : Nat) (xs : List α) (x : α) : List α :=
  let ys := xs ++ [x]
  ys.drop (ys.length - cap)

/-- Python list slice `xs[-n:]` for an arbitrary integer `n`: the last `n`
elements when `n > 0`, the whole list when `n = 0` (since `-0 = 0` the slice
is `xs[0:]`), and `xs[|n|:]` when `n < 0`. -/
def pySliceLast {α : Type} (n : Int) (xs : List α) : List α :=
  if 0 < n then xs.drop (xs.length - n.toNat)
  else if n = 0 then xs
  else xs.drop n.natAbs

structure WorldModel where
  events : List Json
  max_events : Nat
  call_id_counter : Nat

namespace WorldModel

/-- `WorldModel.append_event`: stamp a missing `timestamp` with the current
time and a missing `call_id` with the monotonic `event-N` counter, then
append to the bounded in-memory ring. (The optional JSONL mirror write is a
side effect with no bearing on the claims and is not modelled.) -/
def append_event (w : WorldModel) (now : Int) (event : Json) : WorldModel :=
  let event := if event.objHasKey "timestamp" then event
               else event.objSet "timestamp" (Json.num now)
  let needId := !event.objHasKey "call_id"
  let ctr := if needId then w.call_id_counter + 1 else w.call_id_counter
  let event := if needId then event.objSet "call_id" (Json.str ("event-" ++ toString ctr))
               else event
  { events := ringAppend w.max_events w.events event,
    max_events := w.max_events,
    call_id_counter := ctr }

/-- `WorldModel.get_recent`: the N most recent in-ring events, via the
Python slice `list(self.events)[-n:]`. -/
def get_recent (w : WorldModel) (n : Int) : List Json :=
  pySliceLast n w.events

/-- `WorldModel.get_events_for_agent`: the Python slice `[-n:]` of the ring,
then filtered by `e.get("agent_id") == agent_id`. -/
def get_events_for_agent (w : WorldModel) (agent_id : String) (n : Int) : List Json :=
  (pySliceLast n w.events).filter (fun e => isPyStrEq (e.objGet "agent_id") agent_id)

end WorldModel

/-- One line of a durable JSONL log, classified by what `line.strip()` and
`json.loads(line)` yield on it: whitespace-only, a parseable JSON record, or
a malformed/partial line on which `json.loads` raises `JSONDecodeError`.
The reading code touches the text of a line only through those two
operations, so a log file is modelled as a list of classified lines. -/
inductive LogLine where
  | blank
  | record (v : Json)
  | malformed (text : String)

namespace WorldModel

/-- `WorldModel.load_from_jsonl`: append each parsed line to the live ring
and count it; skip lines that are falsy after `strip()`. The surrounding
`try` catches only `IOError`, so the `json.JSONDecodeError` raised by a
malformed line escapes the method (modelled as `Except.error`). -/
def load_from_jsonl (w : WorldModel) : List LogLine → Except String (WorldModel × Nat)
  | [] => .ok (w, 0)
  | .blank :: rest => load_from_jsonl w rest
  | .record v :: rest =>
    match load_from_jsonl
        { w with events := ringAppend w.max_events w.events v } rest with
    | .ok (w2, c) => .ok (w2, c + 1)
    | .error e => .error e
  | .malformed _ :: _ => .error "JSONDecodeError"

end WorldModel

/-! ## Capability Catalog — src/anse/tool_registry.py -/

/-- What one invocation of an async tool handler does: run for `duration`
seconds of wall-clock time, then either return a value or raise an
exception, where `ename` is the exception class name and `estr` its `str()`
rendering. A handler that would never return is outside this model (the
dispatcher claims quantify over completed invocations). -/
inductive HandlerOutcome where
  | ok (v : Json)
  | exc (ename estr : String)

structure HandlerRun where
  duration : Int
  outcome : HandlerOutcome

/-- A catalog entry as stored by `ToolRegistry.register` (handlers are
async-callable by construction here, so the `iscoroutinefunction` guard
never fires in the model). -/
structure ToolEntry where
  func : Json → HandlerRun
  schema : Json
  description : String
  sensitivity : String
  cost_hint : Json

structure ToolRegistry where
  tools : List (String × ToolEntry)

namespace ToolRegistry

def register (r : ToolRegistry) (name : String) (entry : ToolEntry) : ToolRegistry :=
  { tools := setKV name entry r.tools }

/-- The metadata projection shared by `list_tools` and `get_tool_info`
(everything but the handler itself). -/
def toolMeta (e : ToolEntry) : Json :=
  Json.obj [("description", Json.str e.description), ("schema", e.schema),
    ("sensitivity", Json.str e.sensitivity), ("cost_hint", e.cost_hint)]

/-- `ToolRegistry.list_tools`: name → metadata map over all entries. -/
def list_tools (r : ToolRegistry) : Json :=
  Json.obj (r.tools.map (fun p => (p.1, toolMeta p.2)))

/-- `ToolRegistry.get_tool_info`: metadata for one tool, `None` if absent. -/
def get_tool_info (r : ToolRegistry) (name : String) : Option Json :=
  (alookup name r.tools).map toolMeta

def has_tool (r : ToolRegistry) (name : String) : Bool :=
  (alookup name r.tools).isSome

/-- `ToolRegistry.call`: raise `KeyError(f"Tool '{name}' not found")` when
the tool is absent (its `str()` is the `repr` of that message), else run the
entry's handler on the arguments. -/
def call (r : ToolRegistry) (name : String) (args : Json) : HandlerRun :=
  match alookup name r.tools with
  | none =>
    { duration := 0,
      outcome := .exc "KeyError" (pyReprStr ("Tool " ++ sq ++ name ++ sq ++ " not found")) }
  | some e => e.func args

end ToolRegistry

/-! ## Dispatcher — src/anse/scheduler.py -/

structure RateInfo where
  limit : Nat
  window : Int
  calls : List Int

structure Scheduler where
  tools : ToolRegistry
  world : WorldModel
  call_counter : Nat
  rate_limits : List (String × RateInfo)

namespace Scheduler

/-- `Scheduler.set_rate_limit`: install a fresh 60-second window. -/
def set_rate_limit (s : Scheduler) (tool_name : String) (calls_per_minute : Nat) : Scheduler :=
  { s with rate_limits :=
      setKV tool_name { limit := calls_per_minute, window := 60, calls := [] } s.rate_limits }

/-- `Scheduler._check_rate_limit`: prune timestamps at or before
`now - window` (in place), then allow iff strictly fewer than the limit
remain. Returns the scheduler with the pruned window. -/
def check_rate_limit (s : Scheduler) (now : Int) (tool_name : String) : Scheduler × Bool :=
  match alookup tool_name s.rate_limits with
  | none => (s, true)
  | some info =>
    let windowStart := now - info.window
    let kept := info.calls.filter (fun t => windowStart < t)
    ({ s with rate_limits := setKV tool_name { info with calls := kept } s.rate_limits },
     decide (kept.length < info.limit))

/-- `Scheduler._record_call`: append the completion timestamp to the window
of a rate-limited tool; no-op for tools without a configured limit. -/
def record_call (s : Scheduler) (now : Int) (tool_name : String) : Scheduler :=
  match alookup tool_name s.rate_limits with
  | none => s
  | some info =>
    { s with rate_limits :=
        setKV tool_name { info with calls := info.calls ++ [now] } s.rate_limits }

/-- Python truthiness of the `timeout` float parameter (`if timeout:`):
falsy when `None` or `0.0`, in which case `asyncio.wait_for` is skipped. -/
def timeoutTruthy : Option Int → Bool
  | none => false
  | some t => t != 0

/-- The `tool_result` ledger event paired with an attempt. -/
def resultEvent (agent_id call_id : String) (result : Json) : Json :=
  Json.obj [("type", Json.str "tool_result"), ("agent_id", Json.str agent_id),
    ("call_id", Json.str call_id), ("result", result)]

/-- The `tool_call` attempt event appended before execution. -/
def attemptEvent (agent_id call_id tool : String) (args : Json) : Json :=
  Json.obj [("type", Json.str "tool_call"), ("agent_id", Json.str agent_id),
    ("call_id", Json.str call_id), ("tool", Json.str tool), ("args", args)]

/-- An error result dict `{"status": "error", "error": err, "call_id": id}`. -/
def errorResult (call_id err : String) : Json :=
  Json.obj [("status", Json.str "error"), ("error", Json.str err),
    ("call_id", Json.str call_id)]

/-- A success result dict `{"status": "ok", "call_id": id, "result": v}`. -/
def okResult (call_id : String) (v : Json) : Json :=
  Json.obj [("status", Json.str "ok"), ("call_id", Json.str call_id), ("result", v)]

/-- `Scheduler.execute_call`: count the call, ledger the attempt, evaluate
the sliding-window limiter; either reject with `rate_limited` (handler
untouched) or run the catalog handler under `asyncio.wait_for` when the
timeout is truthy, normalizing expiry to `timeout`, `KeyError` to
`tool_not_found: <str(e)>` and any other exception to `<type>: <str(e)>`;
the completion timestamp is recorded into the rate window only on a normal
completion, and the paired result event is always appended. -/
def execute_call (s0 : Scheduler) (now : Int) (agent_id call_id tool : String)
    (args : Json) (timeout : Option Int) : Scheduler × Json :=
  let s1 := { s0 with call_counter := s0.call_counter + 1 }
  let s2 := { s1 with world := s1.world.append_event now (attemptEvent agent_id call_id tool args) }
  let chk := check_rate_limit s2 now tool
  if chk.2 = false then
    let result := errorResult call_id "rate_limited"
    ({ chk.1 with world := chk.1.world.append_event now (resultEvent agent_id call_id result) },
     result)
  else
    let s3 := chk.1
    let run := s3.tools.call tool args
    if timeoutTruthy timeout && decide (timeout.getD 0 < run.duration) then
      let result := errorResult call_id "timeout"
      ({ s3 with world :=
          s3.world.append_event (now + timeout.getD 0) (resultEvent agent_id call_id result) },
       result)
    else
      match run.outcome with
      | .ok v =>
        let s4 := record_call s3 (now + run.duration) tool
        let result := okResult call_id v
        ({ s4 with world :=
            s4.world.append_event (now + run.duration) (resultEvent agent_id call_id result) },
         result)
      | .exc ename estr =>
        let result :=
          if ename = "KeyError" then errorResult call_id ("tool_not_found: " ++ estr)
          else errorResult call_id (ename ++ ": " ++ estr)
        ({ s3 with world :=
            s3.world.append_event (now + run.duration) (resultEvent agent_id call_id result) },
         result)

/-- Iterated dispatch: `k` rapid `execute_call` invocations of the same tool
with the same arguments at the same instant, threading the scheduler state
and collecting the result dicts in order. -/
def runCalls (now : Int) (agent_id call_id tool : String) (args : Json)
    (timeout : Option Int) : Scheduler → Nat → Scheduler × List Json
  | st, 0 => (st, [])
  | st, Nat.succ k =>
    let r := st.execute_call now agent_id call_id tool args timeout
    let rest := runCalls now agent_id call_id tool args timeout r.1 k
    (rest.1, r.2 :: rest.2)

/-- The tool's recorded rate-window timestamps, if a limit is configured. -/
def windowCalls (s : Scheduler) (t : String) : Option (List Int) :=
  (alookup t s.rate_limits).map RateInfo.calls

/-- The tool's rate-window timestamps as `_check_rate_limit` prunes them at
instant `now` (those strictly inside the trailing window). -/
def prunedWindow (s : Scheduler) (now : Int) (t : String) : Option (List Int) :=
  (alookup t s.rate_limits).map (fun i => i.calls.filter (fun x => now - i.window < x))

theorem check_rate_limit_world (s : Scheduler) (now : Int) (t : String) :
    ((check_rate_limit s now t).1).world = s.world := by
  unfold check_rate_limit
  cases alookup t s.rate_limits <;> rfl

theorem check_rate_limit_tools (s : Scheduler) (now : Int) (t : String) :
    ((check_rate_limit s now t).1).tools = s.tools := by
  unfold check_rate_limit
  cases alookup t s.rate_limits <;> rfl

theorem record_call_world (s : Scheduler) (now : Int) (t : String) :
    (record_call s now t).world = s.world := by
  unfold record_call
  cases alookup t s.rate_limits <;> rfl

theorem check_rate_limit_snd_congr (sA sB : Scheduler) (now : Int) (t : String)
    (h : sA.rate_limits = sB.rate_limits) :
    (check_rate_limit sA now t).2 = (check_rate_limit sB now t).2 := by
  unfold check_rate_limit
  rw [h]
  cases alookup t sB.rate_limits <;> rfl

theorem exec_rejected_result (s : Scheduler) (now : Int) (a c t : String)
    (ar : Json) (tm : Option Int) (h : (check_rate_limit s now t).2 = false) :
    (s.execute_call now a c t ar tm).2 = errorResult c "rate_limited" := by
  simp only [execute_call]
  rw [check_rate_limit_snd_congr
    { tools := s.tools, world := s.world.append_event now (attemptEvent a c t ar),
      call_counter := s.call_counter + 1, rate_limits := s.rate_limits } s now t rfl, h]
  simp

theorem exec_ok_step (st : Scheduler) (now : Int) (a c t : String) (args : Json)
    (entry : ToolEntry) (v : Json) (L j : Nat)
    (hent : alookup t st.tools.tools = some entry)
    (hfunc : entry.func args = { duration := 0, outcome := .ok v })
    (hrl : alookup t st.rate_limits
        = some { limit := L, window := 60, calls := List.replicate j now })
    (hjL : j < L) :
    (st.execute_call now a c t args (some 30)).2 = okResult c v
    ∧ alookup t (st.execute_call now a c t args (some 30)).1.rate_limits
        = some { limit := L, window := 60, calls := List.replicate (j+1) now }
    ∧ (st.execute_call now a c t args (some 30)).1.tools = st.tools := by
  have hfilter : (List.replicate j now).filter (fun x => now - (60:Int) < x)
      = List.replicate j now := by
    rw [List.filter_eq_self]
    intro x hx
    rw [List.eq_of_mem_replicate hx]
    exact decide_eq_true (by omega)
  have hdec : (decide (j < L)) = true := decide_eq_true hjL
  have hrep : List.replicate j now ++ [now] = List.replicate (j+1) now :=
    (List.replicate_succ' j now).symm
  refine ⟨?_, ?_, ?_⟩ <;>
    simp [execute_call, check_rate_limit, record_call, ToolRegistry.call,
      hrl, hent, hfunc, hfilter, hdec, alookup_setKV_self, timeoutTruthy, hrep]

theorem exec_reject_step (st : Scheduler) (now : Int) (a c t : String) (args : Json)
    (tm : Option Int) (L : Nat)
    (hrl : alookup t st.rate_limits
        = some { limit := L, window := 60, calls := List.replicate L now }) :
    (st.execute_call now a c t args tm).2 = errorResult c "rate_limited"
    ∧ alookup t (st.execute_call now a c t args tm).1.rate_limits
        = some { limit := L, window := 60, calls := List.replicate L now }
    ∧ (st.execute_call now a c t args tm).1.tools = st.tools := by
  have hfilter : (List.replicate L now).filter (fun x => now - (60:Int) < x)
      = List.replicate L now := by
    rw [List.filter_eq_self]
    intro x hx
    rw [List.eq_of_mem_replicate hx]
    exact decide_eq_true (by omega)
  have hdec : (decide (L < L)) = false := decide_eq_false (lt_irrefl L)
  refine ⟨?_, ?_, ?_⟩ <;>
    simp [execute_call, check_rate_limit, hrl, hfilter, hdec, alookup_setKV_self]

theorem check_rl_lookup (s : Scheduler) (now : Int) (t : String) :
    alookup t (check_rate_limit s now t).1.rate_limits
      = (alookup t s.rate_limits).map
          (fun i => { i with calls := i.calls.filter (fun x => now - i.window < x) }) := by
  unfold check_rate_limit
  cases h : alookup t s.rate_limits <;> simp [h, alookup_setKV_self]

theorem record_call_rl_lookup (s : Scheduler) (now : Int) (t : String) :
    alookup t (record_call s now t).rate_limits
      = (alookup t s.rate_limits).map (fun i => { i with calls := i.calls ++ [now] }) := by
  unfold record_call
  cases h : alookup t s.rate_limits <;> simp [h, alookup_setKV_self]

theorem okResult_status (c : String) (v : Json) :
    (okResult c v).objGet "status" = some (Json.str "ok") := rfl

theorem errorResult_status (c e : String) :
    (errorResult c e).objGet "status" = some (Json.str "error") := rfl

/-- Case analysis of one dispatch: either the outcome is `ok` and the rate
window of the called tool becomes its pruned form plus the completion
timestamp, or the outcome is not `ok` and the window is only pruned — the
count-on-completion rule of the dispatcher. -/
theorem exec_rate_limits_cases (s : Scheduler) (now : Int) (a c t : String)
    (ar : Json) (tm : Option Int) :
    ((s.execute_call now a c t ar tm).2.objGet "status" = some (Json.str "ok")
      ∧ windowCalls (s.execute_call now a c t ar tm).1 t
          = (prunedWindow s now t).map
              (fun l => l ++ [now + (s.tools.call t ar).duration]))
    ∨ ((s.execute_call now a c t ar tm).2.objGet "status" ≠ some (Json.str "ok")
      ∧ windowCalls (s.execute_call now a c t ar tm).1 t
          = prunedWindow s now t) := by
  simp only [execute_call]
  split
  · right
    refine ⟨by simp [errorResult_status], ?_⟩
    simp only [windowCalls, prunedWindow]
    rw [check_rl_lookup]
    cases alookup t s.rate_limits <;> simp
  · split
    · right
      refine ⟨by simp [errorResult_status], ?_⟩
      simp only [windowCalls, prunedWindow]
      rw [check_rl_lookup]
      cases alookup t s.rate_limits <;> simp
    · split
      next v heq =>
        left
        refine ⟨by simp [okResult_status], ?_⟩
        simp only [windowCalls, prunedWindow]
        rw [record_call_rl_lookup, check_rl_lookup]
        simp only [check_rate_limit_tools]
        cases alookup t s.rate_limits <;> simp
      next ename estr heq =>
        right
        constructor
        · split <;> simp [errorResult_status]
        · simp only [windowCalls, prunedWindow]
          rw [check_rl_lookup]
          cases alookup t s.rate_limits <;> simp

/-- The L+1-rapid-calls induction: from a state whose window for the tool
already holds `j` timestamps of the present instant, `k` further calls
succeed and the next is rejected, when `j + k` equals the limit. -/
theorem runCalls_spec (now : Int) (a c t : String) (args : Json)
    (entry : ToolEntry) (v : Json) (L : Nat)
    (hfunc : entry.func args = { duration := 0, outcome := .ok v }) :
    ∀ (k j : Nat) (st : Scheduler), j + k = L →
      alookup t st.tools.tools = some entry →
      alookup t st.rate_limits
        = some { limit := L, window := 60, calls := List.replicate j now } →
      (runCalls now a c t args (some 30) st (k+1)).2
        = List.replicate k (okResult c v) ++ [errorResult c "rate_limited"]
  | 0, j, st, hjk, hent, hrl => by
    have hj : j = L := by omega
    rw [← hj] at hrl
    have hstep := exec_reject_step st now a c t args (some 30) j hrl
    have hone : (runCalls now a c t args (some 30) st (0+1)).2
        = (st.execute_call now a c t args (some 30)).2
          :: (runCalls now a c t args (some 30)
              (st.execute_call now a c t args (some 30)).1 0).2 := rfl
    rw [hone, hstep.1]
    simp [runCalls]
  | Nat.succ k, j, st, hjk, hent, hrl => by
    have hjL : j < L := by omega
    have hstep := exec_ok_step st now a c t args entry v L j hent hfunc hrl hjL
    have ih := runCalls_spec now a c t args entry v L hfunc k (j+1)
      (st.execute_call now a c t args (some 30)).1 (by omega)
      (by rw [hstep.2.2]; exact hent) hstep.2.1
    have hone : (runCalls now a c t args (some 30) st (k+1+1)).2
        = (st.execute_call now a c t args (some 30)).2
          :: (runCalls now a c t args (some 30)
              (st.execute_call now a c t args (some 30)).1 (k+1)).2 := rfl
    rw [hone, hstep.1, ih, List.replicate_succ, List.cons_append]

end Scheduler

/-- Witness for C1, the spec's own scenario: with `sensitive_scopes=["camera"]`
and an agent holding no scopes, requiring `camera` is denied with
`Missing required scope: camera`; after granting `camera` the check allows. -/
theorem C1_check_permission_contract_witness :
    ((pmCamera.check_permission "agent1" "capture_frame" (some "camera")).2
        = (false, some "Missing required scope: camera"))
    ∧ ((pmCamera.grant_scope "agent1" "camera").check_permission "agent1"
        "capture_frame" (some "camera")).2 = (true, none) := by
  have h := C1_check_permission_contract pmCamera "agent1" "capture_frame" (some "camera")
  exact ⟨h.1.trans (by decide), h.2 "camera" rfl⟩

namespace Scheduler

theorem resultEvent_type (a c : String) (r : Json) :
    (resultEvent a c r).objGet "type" = some (Json.str "tool_result") := rfl

theorem resultEvent_agent (a c : String) (r : Json) :
    (resultEvent a c r).objGet "agent_id" = some (Json.str a) := rfl

theorem resultEvent_call_id (a c : String) (r : Json) :
    (resultEvent a c r).objGet "call_id" = some (Json.str c) := rfl

theorem attemptEvent_type (a c t : String) (j : Json) :
    (attemptEvent a c t j).objGet "type" = some (Json.str "tool_call") := rfl

theorem attemptEvent_agent (a c t : String) (j : Json) :
    (attemptEvent a c t j).objGet "agent_id" = some (Json.str a) := rfl

theorem attemptEvent_call_id (a c t : String) (j : Json) :
    (attemptEvent a c t j).objGet "call_id" = some (Json.str c) := rfl

end Scheduler

/-- C2: every `execute_call` invocation mutates the Ledger by exactly two
appends — first a `tool_call` attempt event, then a `tool_result` event —
both carrying the invocation's `call_id` and `agent_id`, whatever the
outcome (ok, rate-limited, timeout, not-found or handler error). -/
theorem C2_exactly_two_ledger_events (s : Scheduler) (now : Int)
    (agent_id call_id tool : String) (args : Json) (timeout : Option Int) :
    ∃ eA eR t1 t2,
      (s.execute_call now agent_id call_id tool args timeout).1.world
          = (s.world.append_event t1 eA).append_event t2 eR
      ∧ eA.objGet "type" = some (Json.str "tool_call")
      ∧ eA.objGet "agent_id" = some (Json.str agent_id)
      ∧ eA.objGet "call_id" = some (Json.str call_id)
      ∧ eR.objGet "type" = some (Json.str "tool_result")
      ∧ eR.objGet "agent_id" = some (Json.str agent_id)
      ∧ eR.objGet "call_id" = some (Json.str call_id) := by
  simp only [Scheduler.execute_call]
  split
  · rw [Scheduler.check_rate_limit_world]
    exact ⟨_, _, _, _, rfl,
      Scheduler.attemptEvent_type _ _ _ _, Scheduler.attemptEvent_agent _ _ _ _,
      Scheduler.attemptEvent_call_id _ _ _ _, Scheduler.resultEvent_type _ _ _,
      Scheduler.resultEvent_agent _ _ _, Scheduler.resultEvent_call_id _ _ _⟩
  · split
    · rw [Scheduler.check_rate_limit_world]
      exact ⟨_, _, _, _, rfl,
        Scheduler.attemptEvent_type _ _ _ _, Scheduler.attemptEvent_agent _ _ _ _,
        Scheduler.attemptEvent_call_id _ _ _ _, Scheduler.resultEvent_type _ _ _,
        Scheduler.resultEvent_agent _ _ _, Scheduler.resultEvent_call_id _ _ _⟩
    · split
      next v heq =>
        rw [Scheduler.record_call_world, Scheduler.check_rate_limit_world]
        exact ⟨_, _, _, _, rfl,
          Scheduler.attemptEvent_type _ _ _ _, Scheduler.attemptEvent_agent _ _ _ _,
          Scheduler.attemptEvent_call_id _ _ _ _, Scheduler.resultEvent_type _ _ _,
          Scheduler.resultEvent_agent _ _ _, Scheduler.resultEvent_call_id _ _ _⟩
      next ename estr heq =>
        rw [Scheduler.check_rate_limit_world]
        exact ⟨_, _, _, _, rfl,
          Scheduler.attemptEvent_type _ _ _ _, Scheduler.attemptEvent_agent _ _ _ _,
          Scheduler.attemptEvent_call_id _ _ _ _, Scheduler.resultEvent_type _ _ _,
          Scheduler.resultEvent_agent _ _ _, Scheduler.resultEvent_call_id _ _ _⟩

theorem alookup_map {β γ : Type} (k : String) (f : β → γ) :
    (l : List (String × β)) →
      alookup k (l.map (fun p => (p.1, f p.2))) = (alookup k l).map f
  | [] => rfl
  | p :: rest => by
    by_cases h : p.1 = k <;> simp [alookup, h, alookup_map k f rest]

/-- C8: for every name, the entry of the `list_tools()` map equals
`get_tool_info(name)`; for an unregistered name the map has no entry and
`get_tool_info` returns `None`. -/
theorem C8_list_tools_consistent (r : ToolRegistry) (name : String) :
    (r.list_tools).objGet name = r.get_tool_info name
    ∧ (r.has_tool name = false →
        (r.list_tools).objGet name = none ∧ r.get_tool_info name = none) := by
  have h : (r.list_tools).objGet name = (alookup name r.tools).map ToolRegistry.toolMeta := by
    simp [ToolRegistry.list_tools, Json.objGet, alookup_map]
  refine ⟨h.trans rfl, fun hmiss => ?_⟩
  have hnone : alookup name r.tools = none := by
    rcases hl : alookup name r.tools with _ | v
    · rfl
    · simp [ToolRegistry.has_tool, hl] at hmiss
  simp [h, ToolRegistry.get_tool_info, hnone]

/-- A sample registered tool: an async echo handler plus metadata. -/
def echoEntry : ToolEntry :=
  { func := fun a => { duration := 0, outcome := .ok a },
    schema := Json.obj [], description := "Echo", sensitivity := "low",
    cost_hint := Json.obj [] }

def regEcho : ToolRegistry := { tools := [("echo", echoEntry)] }

/-- Witness for C8: in a registry holding only `echo`, the `list_tools`
entry for `echo` equals `get_tool_info("echo")`, and the unregistered name
`ghost` is absent from both. -/
theorem C8_list_tools_consistent_witness :
    regEcho.has_tool "ghost" = false
    ∧ (regEcho.list_tools).objGet "echo" = regEcho.get_tool_info "echo"
    ∧ (regEcho.list_tools).objGet "ghost" = none
    ∧ regEcho.get_tool_info "ghost" = none := by
  have h1 := C8_list_tools_consistent regEcho "echo"
  have h2 := C8_list_tools_consistent regEcho "ghost"
  exact ⟨rfl, h1.1, h2.2 rfl⟩

/-- A scheduler over an empty catalog with an empty ledger and no rate
limits configured. -/
def emptySched : Scheduler :=
  { tools := { tools := [] },
    world := { events := [], max_events := 1000, call_id_counter := 0 },
    call_counter := 0, rate_limits := [] }

/-- C4 counterexample: dispatching the unregistered capability `ghost`
yields the error string `tool_not_found: "Tool 'ghost' not found"` — the
`str()` of the raised `KeyError`, which is the `repr` of its key — and that
string differs from the claimed `tool_not_found: ghost`. -/
theorem C4_counterexample :
    (emptySched.execute_call 0 "agent1" "c1" "ghost" (Json.obj []) (some 30)).2.objGet "error"
      = some (Json.str ("tool_not_found: "
          ++ dq ++ "Tool " ++ sq ++ "ghost" ++ sq ++ " not found" ++ dq))
    ∧ ("tool_not_found: " ++ dq ++ "Tool " ++ sq ++ "ghost" ++ sq ++ " not found" ++ dq)
        ≠ "tool_not_found: ghost" := by
  exact ⟨rfl, by decide⟩

/-- C4 as amended: dispatching an unregistered capability (with no
rate-limit entry for it and a non-negative timeout bound) returns
`{status: error, error: "tool_not_found: " + str(KeyError)}` where the
`KeyError` text is the quoted message `"Tool '<name>' not found"`. -/
theorem C4_tool_not_found_normalized (s : Scheduler) (now : Int)
    (agent_id call_id tool : String) (args : Json) (timeout : Option Int)
    (hreg : s.tools.has_tool tool = false)
    (hrl : alookup tool s.rate_limits = none)
    (hto : 0 ≤ timeout.getD 0) :
    (s.execute_call now agent_id call_id tool args timeout).2 =
      Scheduler.errorResult call_id ("tool_not_found: "
        ++ pyReprStr ("Tool " ++ sq ++ tool ++ sq ++ " not found")) := by
  have hnone : alookup tool s.tools.tools = none := by
    rcases hl : alookup tool s.tools.tools with _ | v
    · rfl
    · simp [ToolRegistry.has_tool, hl] at hreg
  have hdec : (decide ((timeout.getD 0 : Int) < 0)) = false :=
    decide_eq_false (not_lt.mpr hto)
  simp [Scheduler.execute_call, Scheduler.check_rate_limit, hrl,
    ToolRegistry.call, hnone, hdec]

/-- C3: with rate limit L installed on a 60-second window and a non-failing
handler, L+1 rapid calls yield L `ok` results followed by exactly one
`rate_limited` error; a rejected call's result is the same whatever the
catalog holds (the handler is never invoked on rejection); and the rate
window records a completion timestamp only for an `ok` outcome, never on
mere attempt. -/
theorem C3_rate_limit_window (s : Scheduler) (now : Int) (agent_id call_id tool : String)
    (args : Json) (entry : ToolEntry) (v : Json) (L : Nat)
    (hent : alookup tool s.tools.tools = some entry)
    (hfunc : entry.func args = { duration := 0, outcome := .ok v }) :
    (Scheduler.runCalls now agent_id call_id tool args (some 30)
        (s.set_rate_limit tool L) (L+1)).2
      = List.replicate L (Scheduler.okResult call_id v)
          ++ [Scheduler.errorResult call_id "rate_limited"]
    ∧ (∀ (sA sB : Scheduler) (n : Int) (a c t : String) (ar : Json) (tm : Option Int),
        sA.rate_limits = sB.rate_limits →
        (Scheduler.check_rate_limit sA n t).2 = false →
        (sA.execute_call n a c t ar tm).2 = Scheduler.errorResult c "rate_limited"
        ∧ (sA.execute_call n a c t ar tm).2 = (sB.execute_call n a c t ar tm).2)
    ∧ (∀ (s2 : Scheduler) (n : Int) (a c t : String) (ar : Json) (tm : Option Int),
        ((s2.execute_call n a c t ar tm).2.objGet "status" = some (Json.str "ok") →
          Scheduler.windowCalls (s2.execute_call n a c t ar tm).1 t
            = (Scheduler.prunedWindow s2 n t).map
                (fun l => l ++ [n + (s2.tools.call t ar).duration]))
        ∧ ((s2.execute_call n a c t ar tm).2.objGet "status" ≠ some (Json.str "ok") →
          Scheduler.windowCalls (s2.execute_call n a c t ar tm).1 t
            = Scheduler.prunedWindow s2 n t)) := by
  refine ⟨?_, ?_, ?_⟩
  · exact Scheduler.runCalls_spec now agent_id call_id tool args entry v L hfunc L 0
      (s.set_rate_limit tool L) (by omega) hent
      (by simp [Scheduler.set_rate_limit, alookup_setKV_self])
  · rintro sA sB n a c t ar tm hAB hrej
    have hB : (Scheduler.check_rate_limit sB n t).2 = false := by
      rw [← Scheduler.check_rate_limit_snd_congr sA sB n t hAB]
      exact hrej
    have h1 := Scheduler.exec_rejected_result sA n a c t ar tm hrej
    have h2 := Scheduler.exec_rejected_result sB n a c t ar tm hB
    exact ⟨h1, h1.trans h2.symm⟩
  · intro s2 n a c t ar tm
    rcases Scheduler.exec_rate_limits_cases s2 n a c t ar tm with ⟨h1, h2⟩ | ⟨h1, h2⟩
    · exact ⟨fun _ => h2, fun hne => absurd h1 hne⟩
    · exact ⟨fun hok => absurd hok h1, fun _ => h2⟩

/-- A sample non-failing handler returning `pong` instantly. -/
def pongEntry : ToolEntry :=
  { func := fun _ => { duration := 0, outcome := .ok (Json.str "pong") },
    schema := Json.obj [], description := "", sensitivity := "low",
    cost_hint := Json.obj [] }

def schedPing : Scheduler :=
  { tools := { tools := [("ping", pongEntry)] },
    world := { events := [], max_events := 1000, call_id_counter := 0 },
    call_counter := 0, rate_limits := [] }

/-- Witness for C3: limit 2 on `ping`, three rapid calls — `ok`, `ok`,
`rate_limited`, matching the spec's echo scenario. -/
theorem C3_rate_limit_window_witness :
    (Scheduler.runCalls 0 "agent1" "c" "ping" (Json.obj []) (some 30)
        (schedPing.set_rate_limit "ping" 2) 3).2
      = [Scheduler.okResult "c" (Json.str "pong"),
         Scheduler.okResult "c" (Json.str "pong"),
         Scheduler.errorResult "c" "rate_limited"] := by
  have h := C3_rate_limit_window schedPing 0 "agent1" "c" "ping" (Json.obj [])
    pongEntry (Json.str "pong") 2 rfl rfl
  simpa [List.replicate] using h.1

/-- Witness for the amended C4 at the spec's own scenario input. -/
theorem C4_tool_not_found_normalized_witness :
    emptySched.tools.has_tool "ghost" = false
    ∧ (emptySched.execute_call 0 "agent1" "c1" "ghost" (Json.obj []) (some 30)).2 =
        Scheduler.errorResult "c1" ("tool_not_found: "
          ++ pyReprStr ("Tool " ++ sq ++ "ghost" ++ sq ++ " not found")) :=
  ⟨rfl, C4_tool_not_found_normalized emptySched 0 "agent1" "c1" "ghost" (Json.obj [])
    (some 30) rfl rfl (by decide)⟩

/-! ## Audit Sink — src/anse/audit.py

The fingerprint pipeline of `AuditLogger._hash_dict`:
`json.dumps(data, sort_keys=True, default=str)` → UTF-8 bytes → SHA-256 →
lowercase hexadecimal digest → first 8 characters. The serializer below is
faithful for strings without characters Python would escape (all strings
the modelled system produces); `default=str` never fires on `Json` values
since all are serializable. SHA-256 is implemented in full. -/

/-- Join rendered items with the default `json.dumps` item separator. -/
def commaJoin : List String → String
  | [] => ""
  | [s] => s
  | s :: rest => s ++ ", " ++ commaJoin rest

/-- Insertion into a key-sorted list of (key, rendered entry) pairs. -/
def insertPair (p : String × String) : List (String × String) → List (String × String)
  | [] => [p]
  | q :: rest => if p.1 ≤ q.1 then p :: q :: rest else q :: insertPair p rest

/-- Sort (key, rendered entry) pairs by key — the `sort_keys=True` order. -/
def sortPairs (l : List (String × String)) : List (String × String) :=
  l.foldr insertPair []

mutual

/-- Canonical serialization, `json.dumps(data, sort_keys=True)` with the
default separators: object entries are rendered, then emitted in key order. -/
def dumpsCanon : Json → String
  | Json.null => "null"
  | Json.bool true => "true"
  | Json.bool false => "false"
  | Json.num n => toString n
  | Json.str s => dq ++ s ++ dq
  | Json.arr xs => "[" ++ commaJoin (dumpsArr xs) ++ "]"
  | Json.obj kvs => "\x7b" ++ commaJoin ((sortPairs (dumpsEntries kvs)).map Prod.snd) ++ "\x7d"

def dumpsArr : List Json → List String
  | [] => []
  | x :: rest => dumpsCanon x :: dumpsArr rest

def dumpsEntries : List (String × Json) → List (String × String)
  | [] => []
  | (k, v) :: rest => (k, dq ++ k ++ dq ++ ": " ++ dumpsCanon v) :: dumpsEntries rest

end

/-- Truncation of a natural to a 32-bit word. -/
def w32 (x : Nat) : Nat := x % 4294967296

def rotr32 (n x : Nat) : Nat := w32 ((x >>> n) ||| (x <<< (32 - n)))

def capSig0 (x : Nat) : Nat := (rotr32 2 x) ^^^ (rotr32 13 x) ^^^ (rotr32 22 x)

def capSig1 (x : Nat) : Nat := (rotr32 6 x) ^^^ (rotr32 11 x) ^^^ (rotr32 25 x)

def smlSig0 (x : Nat) : Nat := (rotr32 7 x) ^^^ (rotr32 18 x) ^^^ (x >>> 3)

def smlSig1 (x : Nat) : Nat := (rotr32 17 x) ^^^ (rotr32 19 x) ^^^ (x >>> 10)

def chf (x y z : Nat) : Nat := (x &&& y) ^^^ ((x ^^^ 4294967295) &&& z)

def maj (x y z : Nat) : Nat := (x &&& y) ^^^ (x &&& z) ^^^ (y &&& z)

/-- The SHA-256 round constants (decimal). -/
def shaK : List Nat :=
  [1116352408, 1899447441, 3049323471, 3921009573, 961987163, 1508970993,
   2453635748, 2870763221, 3624381080, 310598401, 607225278, 1426881987,
   1925078388, 2162078206, 2614888103, 3248222580, 3835390401, 4022224774,
   264347078, 604807628, 770255983, 1249150122, 1555081692, 1996064986,
   2554220882, 2821834349, 2952996808, 3210313671, 3336571891, 3584528711,
   113926993, 338241895, 666307205, 773529912, 1294757372, 1396182291,
   1695183700, 1986661051, 2177026350, 2456956037, 2730485921, 2820302411,
   3259730800, 3345764771, 3516065817, 3600352804, 4094571909, 275423344,
   430227734, 506948616, 659060556, 883997877, 958139571, 1322822218,
   1537002063, 1747873779, 1955562222, 2024104815, 2227730452, 2361852424,
   2428436474, 2756734187, 3204031479, 3329325298]

/-- A SHA-256 working state / digest: eight 32-bit words. -/
structure Hash8 where
  a : Nat
  b : Nat
  c : Nat
  d : Nat
  e : Nat
  f : Nat
  g : Nat
  hh : Nat

/-- The SHA-256 initial state (decimal). -/
def shaH0 : Hash8 :=
  { a := 1779033703, b := 3144134277, c := 1013904242, d := 2773480762,
    e := 1359893119, f := 2600822924, g := 528734635, hh := 1541459225 }

/-- The message length in bits as 8 big-endian bytes. -/
def lengthBytes (n : Nat) : List Nat :=
  (List.range 8).map (fun i => (n >>> ((7 - i) * 8)) % 256)

/-- SHA-256 padding: a 0x80 byte, zeros to 56 mod 64, the bit length. -/
def padMessage (msg : List Nat) : List Nat :=
  let l := msg.length
  let k := (119 - (l % 64)) % 64
  msg ++ [128] ++ List.replicate k 0 ++ lengthBytes (8 * l)

/-- The first 16 big-endian 32-bit words of a 64-byte block. -/
def blockWords (block : List Nat) : List Nat :=
  (List.range 16).map (fun i =>
    (block.getD (4 * i) 0) * 16777216 + (block.getD (4 * i + 1) 0) * 65536
      + (block.getD (4 * i + 2) 0) * 256 + block.getD (4 * i + 3) 0)

/-- Extend the message schedule by `k` further words. -/
def extendWords (w : Array Nat) : Nat → Array Nat
  | 0 => w
  | Nat.succ k =>
    let i := w.size
    let nw := w32 (smlSig1 (w.getD (i - 2) 0) + w.getD (i - 7) 0
      + smlSig0 (w.getD (i - 15) 0) + w.getD (i - 16) 0)
    extendWords (w.push nw) k

def messageSchedule (block : List Nat) : List Nat :=
  (extendWords (blockWords block).toArray 48).toList

/-- One SHA-256 compression round. -/
def round1 (st : Hash8) (kw : Nat × Nat) : Hash8 :=
  let t1 := w32 (st.hh + capSig1 st.e + chf st.e st.f st.g + kw.1 + kw.2)
  let t2 := w32 (capSig0 st.a + maj st.a st.b st.c)
  { a := w32 (t1 + t2), b := st.a, c := st.b, d := st.c,
    e := w32 (st.d + t1), f := st.e, g := st.f, hh := st.g }

/-- Compress one 64-byte block into the state. -/
def compressBlock (st : Hash8) (block : List Nat) : Hash8 :=
  let fin := (shaK.zip (messageSchedule block)).foldl round1 st
  { a := w32 (st.a + fin.a), b := w32 (st.b + fin.b), c := w32 (st.c + fin.c),
    d := w32 (st.d + fin.d), e := w32 (st.e + fin.e), f := w32 (st.f + fin.f),
    g := w32 (st.g + fin.g), hh := w32 (st.hh + fin.hh) }

/-- Process the padded message 64 bytes at a time (fuel-bounded; the fuel is
the padded length, always enough). -/
def processBlocks : Nat → Hash8 → List Nat → Hash8
  | 0, st, _ => st
  | Nat.succ fuel, st, bs =>
    if bs.isEmpty then st
    else processBlocks fuel (compressBlock st (bs.take 64)) (bs.drop 64)

def sha256Words (msg : List Nat) : Hash8 :=
  let padded := padMessage msg
  processBlocks padded.length shaH0 padded

/-- One lowercase hexadecimal digit. -/
def hexChar (n : Nat) : Char :=
  if n < 10 then Char.ofNat (48 + n) else Char.ofNat (87 + n)

/-- Eight hex characters of one 32-bit word, most significant first. -/
def wordHexChars (w : Nat) : List Char :=
  (List.range 8).map (fun i => hexChar ((w >>> ((7 - i) * 4)) % 16))

/-- The 64-character hexadecimal digest (`hexdigest()`). -/
def hexDigestChars (d : Hash8) : List Char :=
  wordHexChars d.a ++ wordHexChars d.b ++ wordHexChars d.c ++ wordHexChars d.d
    ++ wordHexChars d.e ++ wordHexChars d.f ++ wordHexChars d.g ++ wordHexChars d.hh

/-- UTF-8 bytes of a string (`.encode()`). -/
def stringBytes (s : String) : List Nat :=
  s.toUTF8.toList.map (fun b => b.toNat)

def sha256HexChars (s : String) : List Char :=
  hexDigestChars (sha256Words (stringBytes s))

namespace AuditLogger

/-- `AuditLogger._hash_dict`: SHA-256 of the canonical serialization,
truncated to the first 8 hex characters. -/
def hash_dict (data : Json) : String :=
  String.mk ((sha256HexChars (dumpsCanon data)).take 8)

end AuditLogger

/-- The audit record `log_tool_call` builds: digests of args and result,
never the raw values, beside correlation ids, status and duration. -/
structure AuditEntry where
  timestamp : Int
  agent_id : String
  call_id : String
  tool : String
  args_hash : String
  result_hash : String
  status : String
  duration_ms : Rat

namespace AuditLogger

/-- `AuditLogger.log_tool_call`: fingerprint args and result independently
and record them with the call metadata. -/
def log_tool_call (now : Int) (agent_id call_id tool : String) (args result : Json)
    (status : String) (duration_ms : Rat) : AuditEntry :=
  { timestamp := now, agent_id := agent_id, call_id := call_id, tool := tool,
    args_hash := hash_dict args, result_hash := hash_dict result,
    status := status, duration_ms := duration_ms }

/-- `AuditLogger.load_audit_log`: parse every non-blank line; the `try`
catches only `IOError`, so the `json.JSONDecodeError` of a malformed line
escapes (modelled as `Except.error`). -/
def load_audit_log : List LogLine → Except String (List Json)
  | [] => .ok []
  | .blank :: rest => load_audit_log rest
  | .record v :: rest =>
    match load_audit_log rest with
    | .ok es => .ok (v :: es)
    | .error e => .error e
  | .malformed _ :: _ => .error "JSONDecodeError"

end AuditLogger

/-! ## Isolation Layer — src/anse/multiagent.py

The two Python clocks (`datetime.utcnow()` for reset intervals,
`time.time()` for window timestamps) are one `now : Int`; millisecond and
megabyte floats are `Rat`. -/

structure AgentQuota where
  agent_id : String
  cpu_budget_ms : Rat
  storage_quota_mb : Rat
  tool_rate_limits : List (String × Nat)
  cpu_used_ms : Rat
  storage_used_mb : Rat
  last_reset : Int
  tool_calls : List (String × List Int)

namespace AgentQuota

/-- `AgentQuota.reset_if_needed`: once the interval has elapsed, zero the
CPU usage, clear all per-tool call timestamps and restart the interval;
storage is untouched. -/
def reset_if_needed (q : AgentQuota) (now : Int) (reset_interval_sec : Int) : AgentQuota :=
  if now - q.last_reset > reset_interval_sec then
    { q with cpu_used_ms := 0, tool_calls := [], last_reset := now }
  else q

/-- `AgentQuota.check_cpu_budget` (lazy reset, then budget comparison). -/
def check_cpu_budget (q0 : AgentQuota) (now : Int) (additional_ms : Rat) :
    AgentQuota × Bool :=
  let q := q0.reset_if_needed now 60
  (q, decide (q.cpu_used_ms + additional_ms ≤ q.cpu_budget_ms))

/-- `AgentQuota.use_cpu` (lazy reset, then accumulate). -/
def use_cpu (q0 : AgentQuota) (now : Int) (duration_ms : Rat) : AgentQuota :=
  let q := q0.reset_if_needed now 60
  { q with cpu_used_ms := q.cpu_used_ms + duration_ms }

/-- `AgentQuota.check_tool_rate_limit`: lazy reset; no limit configured means
allowed; otherwise prune the tool's timestamps to the last 60 seconds
(creating the entry when missing) and allow iff strictly under the limit. -/
def check_tool_rate_limit (q0 : AgentQuota) (now : Int) (tool_name : String) :
    AgentQuota × Bool :=
  let q := q0.reset_if_needed now 60
  match alookup tool_name q.tool_rate_limits with
  | none => (q, true)
  | some limit =>
    let kept := ((alookup tool_name q.tool_calls).getD []).filter
      (fun ts => now - ts < 60)
    ({ q with tool_calls := setKV tool_name kept q.tool_calls },
     decide (kept.length < limit))

/-- `AgentQuota.record_tool_call`: lazy reset, then append the timestamp to
the tool's list (creating the entry when missing). -/
def record_tool_call (q0 : AgentQuota) (now : Int) (tool_name : String) : AgentQuota :=
  let q := q0.reset_if_needed now 60
  { q with tool_calls :=
      setKV tool_name ((alookup tool_name q.tool_calls).getD [] ++ [now]) q.tool_calls }

end AgentQuota

structure MultiagentEngine where
  quotas : List (String × AgentQuota)
  agents_online : List String

namespace MultiagentEngine

def get_quota (e : MultiagentEngine) (agent_id : String) : Option AgentQuota :=
  alookup agent_id e.quotas

/-- `MultiagentEngine.check_tool_access`: unregistered agents are denied;
otherwise the per-agent rate gate and then (only for a positive estimate)
the CPU-budget gate must pass. The in-place Python mutations of the aliased
quota object are written back into the table. -/
def check_tool_access (e : MultiagentEngine) (now : Int) (agent_id tool_name : String)
    (estimated_duration_ms : Rat) : MultiagentEngine × Bool × Option String :=
  match alookup agent_id e.quotas with
  | none => (e, false, some "agent_not_registered")
  | some q =>
    let r1 := q.check_tool_rate_limit now tool_name
    if r1.2 = false then
      let limit := (alookup tool_name r1.1.tool_rate_limits).getD 0
      ({ e with quotas := setKV agent_id r1.1 e.quotas }, false,
        some ("rate_limit_exceeded_" ++ toString limit ++ "_per_min"))
    else if estimated_duration_ms > 0 then
      let r2 := r1.1.check_cpu_budget now estimated_duration_ms
      if r2.2 = false then
        ({ e with quotas := setKV agent_id r2.1 e.quotas }, false,
          some "cpu_budget_exceeded")
      else
        ({ e with quotas := setKV agent_id r2.1 e.quotas }, true, none)
    else
      ({ e with quotas := setKV agent_id r1.1 e.quotas }, true, none)

/-- `MultiagentEngine.record_tool_call`: after a completed call, record the
timestamp, accumulate CPU only for a positive duration and storage only for
a positive increment; unregistered agents are ignored. -/
def record_tool_call (e : MultiagentEngine) (now : Int) (agent_id tool_name : String)
    (duration_ms storage_mb : Rat) : MultiagentEngine :=
  match alookup agent_id e.quotas with
  | none => e
  | some q =>
    let q := q.record_tool_call now tool_name
    let q := if duration_ms > 0 then q.use_cpu now duration_ms else q
    let q := if storage_mb > 0 then
        { q with storage_used_mb := q.storage_used_mb + storage_mb } else q
    { e with quotas := setKV agent_id q e.quotas }

end MultiagentEngine

theorem reset_if_needed_storage (q : AgentQuota) (now i : Int) :
    (q.reset_if_needed now i).storage_used_mb = q.storage_used_mb := by
  unfold AgentQuota.reset_if_needed
  split <;> rfl

theorem quota_record_storage (q : AgentQuota) (now : Int) (t : String) :
    (q.record_tool_call now t).storage_used_mb = q.storage_used_mb := by
  simp [AgentQuota.record_tool_call, reset_if_needed_storage]

theorem use_cpu_storage (q : AgentQuota) (now : Int) (d : Rat) :
    (q.use_cpu now d).storage_used_mb = q.storage_used_mb := by
  simp [AgentQuota.use_cpu, reset_if_needed_storage]

theorem check_tool_rate_limit_storage (q : AgentQuota) (now : Int) (t : String) :
    (q.check_tool_rate_limit now t).1.storage_used_mb = q.storage_used_mb := by
  simp only [AgentQuota.check_tool_rate_limit]
  rcases alookup t (q.reset_if_needed now 60).tool_rate_limits with _ | limit <;>
    simp [reset_if_needed_storage]

theorem check_cpu_budget_storage (q : AgentQuota) (now : Int) (d : Rat) :
    (q.check_cpu_budget now d).1.storage_used_mb = q.storage_used_mb := by
  simp [AgentQuota.check_cpu_budget, reset_if_needed_storage]

theorem setKV_lookup_mono (e : MultiagentEngine) (agent a2 : String)
    (q0 qn : AgentQuota) (h0 : alookup a2 e.quotas = some q0)
    (hle : agent = a2 → q0.storage_used_mb ≤ qn.storage_used_mb) :
    ∃ q1, alookup a2 (setKV agent qn e.quotas) = some q1
      ∧ q0.storage_used_mb ≤ q1.storage_used_mb := by
  by_cases haa : agent = a2
  · subst haa
    exact ⟨qn, alookup_setKV_self _ _ _, hle rfl⟩
  · refine ⟨q0, ?_, le_refl _⟩
    rw [alookup_setKV_ne _ _ _ _ haa]
    exact h0

/-- C9: the accumulated storage usage of an agent quota never decreases
under any Isolation Layer operation — the lazy reset zeroes CPU usage and
clears per-tool call timestamps but leaves storage untouched (and is a
no-op before the interval elapses); the quota-level bookkeeping operations
preserve storage exactly; and the engine-level accounting and access checks
can only keep or increase every agent's recorded storage. -/
theorem C9_storage_monotone :
    (∀ (q : AgentQuota) (now i : Int),
        (q.reset_if_needed now i).storage_used_mb = q.storage_used_mb
        ∧ (now - q.last_reset > i →
            (q.reset_if_needed now i).cpu_used_ms = 0
            ∧ (q.reset_if_needed now i).tool_calls = [])
        ∧ (¬ now - q.last_reset > i → q.reset_if_needed now i = q))
    ∧ (∀ (q : AgentQuota) (now : Int) (t : String) (d : Rat),
        (q.use_cpu now d).storage_used_mb = q.storage_used_mb
        ∧ (q.check_cpu_budget now d).1.storage_used_mb = q.storage_used_mb
        ∧ (q.check_tool_rate_limit now t).1.storage_used_mb = q.storage_used_mb
        ∧ (q.record_tool_call now t).storage_used_mb = q.storage_used_mb)
    ∧ (∀ (e : MultiagentEngine) (now : Int) (agent t a2 : String) (d s : Rat)
        (q0 : AgentQuota), alookup a2 e.quotas = some q0 →
        ∃ q1, alookup a2 (e.record_tool_call now agent t d s).quotas = some q1
          ∧ q0.storage_used_mb ≤ q1.storage_used_mb)
    ∧ (∀ (e : MultiagentEngine) (now : Int) (agent t a2 : String) (est : Rat)
        (q0 : AgentQuota), alookup a2 e.quotas = some q0 →
        ∃ q1, alookup a2 (e.check_tool_access now agent t est).1.quotas = some q1
          ∧ q0.storage_used_mb ≤ q1.storage_used_mb) := by
  refine ⟨?_, ?_, ?_, ?_⟩
  · intro q now i
    refine ⟨reset_if_needed_storage q now i, ?_, ?_⟩
    · intro h
      constructor <;> simp [AgentQuota.reset_if_needed, h]
    · intro h
      simp [AgentQuota.reset_if_needed, h]
  · intro q now t d
    exact ⟨use_cpu_storage q now d, check_cpu_budget_storage q now d,
      check_tool_rate_limit_storage q now t, quota_record_storage q now t⟩
  · intro e now agent t a2 d s q0 h0
    rcases hq : alookup agent e.quotas with _ | q
    · exact ⟨q0, by simp [MultiagentEngine.record_tool_call, hq, h0], le_refl _⟩
    · have hq0 : agent = a2 → q0 = q := by
        intro haa
        subst haa
        rw [hq] at h0
        exact (Option.some.injEq _ _ ▸ h0).symm
      have hmid : (if d > 0 then (q.record_tool_call now t).use_cpu now d
          else q.record_tool_call now t).storage_used_mb = q.storage_used_mb := by
        split <;> simp [use_cpu_storage, quota_record_storage]
      simp only [MultiagentEngine.record_tool_call, hq]
      apply setKV_lookup_mono e agent a2 q0 _ h0
      intro haa
      rw [hq0 haa]
      split
      next hs =>
        have : (0:Rat) < s := hs
        simp [hmid]
        linarith
      next hs => simp [hmid]
  · intro e now agent t a2 est q0 h0
    rcases hq : alookup agent e.quotas with _ | q
    · exact ⟨q0, by simp [MultiagentEngine.check_tool_access, hq, h0], le_refl _⟩
    · have hq0 : agent = a2 → q0 = q := by
        intro haa
        subst haa
        rw [hq] at h0
        exact (Option.some.injEq _ _ ▸ h0).symm
      simp only [MultiagentEngine.check_tool_access, hq]
      split
      · apply setKV_lookup_mono e agent a2 q0 _ h0
        intro haa
        rw [hq0 haa, check_tool_rate_limit_storage]
      · split
        · split
          · apply setKV_lookup_mono e agent a2 q0 _ h0
            intro haa
            rw [hq0 haa, check_cpu_budget_storage, check_tool_rate_limit_storage]
          · apply setKV_lookup_mono e agent a2 q0 _ h0
            intro haa
            rw [hq0 haa, check_cpu_budget_storage, check_tool_rate_limit_storage]
        · apply setKV_lookup_mono e agent a2 q0 _ h0
          intro haa
          rw [hq0 haa, check_tool_rate_limit_storage]

/-! ## Protocol Front-End — src/anse/agent_bridge.py

A request dict is modelled by the fields `_handle_request` reads from it;
`params.get(...)` defaults are the `Option.getD` defaults below. A wire
message is either a parseable request or text on which `json.loads` raises
(`WireMsg.malformed`). `handle_client` is parameterized by the request
handler so that an arbitrary internal exception escaping `_handle_request`
(caught by the per-message `except Exception`) is representable; the
never-raising `realHandler` instantiates it with the `_handle_request`
embedding. -/

structure ReqParams where
  agent_id : Option String
  call_id : Option String
  tool : Option String
  args : Option Json
  n : Option Int

def defaultParams : ReqParams :=
  { agent_id := none, call_id := none, tool := none, args := none, n := none }

structure Request where
  method : Option String
  params : Option ReqParams

inductive WireMsg where
  | malformed
  | request (r : Request)

namespace AgentBridge

/-- `AgentBridge._handle_request`: route by method in source order —
`list_tools`, `call_tool` (caller-declared `agent_id` override, default
call id `unknown`, falsy tool name rejected), `get_history` (connection
identity, default n = 10), `get_tool_info`, `ping`, else `unknown_method`. -/
def handle_request (st : Scheduler) (now : Int) (agent_id : String) (req : Request) :
    Scheduler × Json :=
  match req.method with
  | some m =>
    if m = "list_tools" then
      (st, Json.obj [("result", st.tools.list_tools)])
    else if m = "call_tool" then
      let p := req.params.getD defaultParams
      let agentOv := p.agent_id.getD agent_id
      let cid := p.call_id.getD "unknown"
      match p.tool with
      | none =>
        (st, Json.obj [("error", Json.str "missing_tool_name"), ("call_id", Json.str cid)])
      | some t =>
        if t = "" then
          (st, Json.obj [("error", Json.str "missing_tool_name"), ("call_id", Json.str cid)])
        else
          st.execute_call now agentOv cid t (p.args.getD (Json.obj [])) (some 30)
    else if m = "get_history" then
      let p := req.params.getD defaultParams
      let n := p.n.getD 10
      (st, Json.obj [("result", Json.arr (st.world.get_events_for_agent agent_id n))])
    else if m = "get_tool_info" then
      let p := req.params.getD defaultParams
      match p.tool with
      | none => (st, Json.obj [("error", Json.str "missing_tool_name")])
      | some t =>
        if t = "" then
          (st, Json.obj [("error", Json.str "missing_tool_name")])
        else
          match st.tools.get_tool_info t with
          | none =>
            (st, Json.obj [("error", Json.str "tool_not_found"), ("tool", Json.str t)])
          | some info => (st, Json.obj [("result", info)])
    else if m = "ping" then
      (st, Json.obj [("result", Json.str "pong")])
    else
      (st, Json.obj [("error", Json.str "unknown_method"), ("method", Json.str m)])
  | none => (st, Json.obj [("error", Json.str "unknown_method"), ("method", Json.null)])

/-- One iteration of `handle_client`'s message loop: unparseable input gets
the `invalid_json` reply, a handler exception gets the `internal_error`
reply with the exception text; the connection state carries on. -/
def processClientMsg (h : Scheduler → Request → Scheduler × Except String Json)
    (st : Scheduler) : WireMsg → Scheduler × Json
  | WireMsg.malformed =>
    (st, Json.obj [("error", Json.str "invalid_json"),
      ("message", Json.str "Could not parse JSON")])
  | WireMsg.request r =>
    match h st r with
    | (st2, Except.ok resp) => (st2, resp)
    | (st2, Except.error m) =>
      (st2, Json.obj [("error", Json.str "internal_error"), ("message", Json.str m)])

/-- `AgentBridge.handle_client`: reply to every message of the connection
in order, threading state — per-message failures never end the loop. -/
def handle_client (h : Scheduler → Request → Scheduler × Except String Json) :
    Scheduler → List WireMsg → Scheduler × List Json
  | st, [] => (st, [])
  | st, m :: ms =>
    let r := processClientMsg h st m
    let rest := handle_client h r.1 ms
    (rest.1, r.2 :: rest.2)

/-- The request handler as implemented: the `_handle_request` embedding,
which returns normally on every input. -/
def realHandler (now : Int) (agent_id : String) :
    Scheduler → Request → Scheduler × Except String Json :=
  fun st r =>
    ((handle_request st now agent_id r).1, Except.ok (handle_request st now agent_id r).2)

end AgentBridge

def LogLine.isMalformed : LogLine → Bool
  | .malformed _ => true
  | _ => false

/-- The JSON records of a log file's parseable lines, in order. -/
def LogLine.records : List LogLine → List Json
  | [] => []
  | LogLine.record v :: rest => v :: LogLine.records rest
  | LogLine.blank :: rest => LogLine.records rest
  | LogLine.malformed _ :: rest => LogLine.records rest

def emptyWorld : WorldModel :=
  { events := [], max_events := 1000, call_id_counter := 0 }

def goodLine : Json := Json.obj [("type", Json.str "tool_call")]

/-- C5 counterexample: on a durable log whose final line is malformed, both
the Ledger's replay reader and the Audit Sink's reader raise the decode
error instead of skipping the line and returning the parsed records. -/
theorem C5_counterexample :
    WorldModel.load_from_jsonl emptyWorld
        [LogLine.record goodLine, LogLine.malformed "tru"]
      = Except.error "JSONDecodeError"
    ∧ AuditLogger.load_audit_log [LogLine.record goodLine, LogLine.malformed "tru"]
      = Except.error "JSONDecodeError" :=
  ⟨rfl, rfl⟩

/-- C5 as amended: both readers skip blank/whitespace-only lines and return
every successfully parsed record when all non-blank lines parse; but a
malformed non-blank line (anywhere, in particular a trailing partial write)
raises an uncaught JSON decode error in either reader — only I/O errors are
tolerated. -/
theorem C5_readers_blank_tolerant (w : WorldModel) (lines : List LogLine) :
    ((∀ l ∈ lines, l.isMalformed = false) →
      (∃ w2, WorldModel.load_from_jsonl w lines
          = .ok (w2, (LogLine.records lines).length))
      ∧ AuditLogger.load_audit_log lines = .ok (LogLine.records lines))
    ∧ ((∃ l ∈ lines, l.isMalformed = true) →
      (∃ e, WorldModel.load_from_jsonl w lines = .error e)
      ∧ (∃ e, AuditLogger.load_audit_log lines = .error e)) := by
  induction lines generalizing w with
  | nil =>
    constructor
    · intro _
      exact ⟨⟨w, rfl⟩, rfl⟩
    · rintro ⟨l, hl, _⟩
      simp at hl
  | cons head rest ih =>
    constructor
    · intro hall
      have hh := hall head (by simp)
      cases head with
      | blank =>
        have hrest := (ih w).1 (fun l hl => hall l (List.mem_cons_of_mem _ hl))
        obtain ⟨⟨w2, hw⟩, ha⟩ := hrest
        refine ⟨⟨w2, ?_⟩, ?_⟩
        · simpa [WorldModel.load_from_jsonl, LogLine.records] using hw
        · simpa [AuditLogger.load_audit_log, LogLine.records] using ha
      | record v =>
        have hrest := (ih { w with events := ringAppend w.max_events w.events v }).1
          (fun l hl => hall l (List.mem_cons_of_mem _ hl))
        obtain ⟨⟨w2, hw⟩, ha⟩ := hrest
        refine ⟨⟨w2, ?_⟩, ?_⟩
        · simp [WorldModel.load_from_jsonl, hw, LogLine.records]
        · simp [AuditLogger.load_audit_log, ha, LogLine.records]
      | malformed t => simp [LogLine.isMalformed] at hh
    · rintro ⟨l, hl, hml⟩
      cases head with
      | blank =>
        rcases List.mem_cons.mp hl with rfl | hlr
        · simp [LogLine.isMalformed] at hml
        · have hrest := (ih w).2 ⟨l, hlr, hml⟩
          obtain ⟨⟨e1, he1⟩, e2, he2⟩ := hrest
          exact ⟨⟨e1, by simpa [WorldModel.load_from_jsonl] using he1⟩,
            ⟨e2, by simpa [AuditLogger.load_audit_log] using he2⟩⟩
      | record v =>
        rcases List.mem_cons.mp hl with rfl | hlr
        · simp [LogLine.isMalformed] at hml
        · have hrest := (ih { w with events := ringAppend w.max_events w.events v }).2
            ⟨l, hlr, hml⟩
          obtain ⟨⟨e1, he1⟩, e2, he2⟩ := hrest
          exact ⟨⟨e1, by simp [WorldModel.load_from_jsonl, he1]⟩,
            ⟨e2, by simp [AuditLogger.load_audit_log, he2]⟩⟩
      | malformed t =>
        exact ⟨⟨"JSONDecodeError", rfl⟩, ⟨"JSONDecodeError", rfl⟩⟩

/-- Witness for the amended C5: a log `[record, blank]` loads cleanly in
both readers (the trailing blank line skipped); a log `[record, malformed]`
makes both readers raise. -/
theorem C5_readers_blank_tolerant_witness :
    ((∃ w2, WorldModel.load_from_jsonl emptyWorld
        [LogLine.record goodLine, LogLine.blank] = .ok (w2, 1))
      ∧ AuditLogger.load_audit_log [LogLine.record goodLine, LogLine.blank]
          = .ok [goodLine])
    ∧ ((∃ e, WorldModel.load_from_jsonl emptyWorld
        [LogLine.record goodLine, LogLine.malformed "tru"] = .error e)
      ∧ (∃ e, AuditLogger.load_audit_log
          [LogLine.record goodLine, LogLine.malformed "tru"] = .error e)) := by
  constructor
  · have h := (C5_readers_blank_tolerant emptyWorld
      [LogLine.record goodLine, LogLine.blank]).1 (by decide)
    simpa [LogLine.records] using h
  · exact (C5_readers_blank_tolerant emptyWorld
      [LogLine.record goodLine, LogLine.malformed "tru"]).2
      ⟨LogLine.malformed "tru", by simp, rfl⟩

/-- The lowercase hexadecimal alphabet. -/
def hexAlphabet : List Char := "0123456789abcdef".data

theorem hexChar_mem (n : Nat) (h : n < 16) : hexChar n ∈ hexAlphabet := by
  interval_cases n <;> decide

theorem wordHexChars_mem (w : Nat) : ∀ ch ∈ wordHexChars w, ch ∈ hexAlphabet := by
  intro ch hch
  simp only [wordHexChars, List.mem_map, List.mem_range] at hch
  obtain ⟨i, _, rfl⟩ := hch
  exact hexChar_mem _ (Nat.mod_lt _ (by norm_num))

theorem wordHexChars_length (w : Nat) : (wordHexChars w).length = 8 := by
  simp [wordHexChars]

theorem hexDigestChars_length (d : Hash8) : (hexDigestChars d).length = 64 := by
  simp [hexDigestChars, wordHexChars_length]

theorem hexDigestChars_mem (d : Hash8) : ∀ ch ∈ hexDigestChars d, ch ∈ hexAlphabet := by
  intro ch hch
  simp only [hexDigestChars, List.mem_append] at hch
  rcases hch with ((((((h | h) | h) | h) | h) | h) | h) | h <;>
    exact wordHexChars_mem _ _ h

theorem hash_dict_length (j : Json) : (AuditLogger.hash_dict j).length = 8 := by
  have h0 : (AuditLogger.hash_dict j).length
      = ((sha256HexChars (dumpsCanon j)).take 8).length := rfl
  rw [h0, List.length_take]
  have h1 : (sha256HexChars (dumpsCanon j)).length = 64 := hexDigestChars_length _
  rw [h1]
  decide

/-- C7: the fingerprint is a deterministic function of the canonical
(key-order-normalized) serialization, its digest is 8 lowercase-hex
characters, and the audit record keeps only the digests of args and result
— two argument structures with the same digest produce identical records
(raw values are never stored). -/
theorem C7_fingerprint_deterministic (a b : Json)
    (h : dumpsCanon a = dumpsCanon b) (now : Int)
    (agent_id call_id tool status : String) (res : Json) (dur : Rat) :
    AuditLogger.hash_dict a = AuditLogger.hash_dict b
    ∧ (AuditLogger.hash_dict a).length = 8
    ∧ (∀ ch ∈ (AuditLogger.hash_dict a).data, ch ∈ hexAlphabet)
    ∧ (AuditLogger.log_tool_call now agent_id call_id tool a res status dur).args_hash
        = AuditLogger.hash_dict a
    ∧ (AuditLogger.log_tool_call now agent_id call_id tool a res status dur).result_hash
        = AuditLogger.hash_dict res
    ∧ AuditLogger.log_tool_call now agent_id call_id tool a res status dur
        = AuditLogger.log_tool_call now agent_id call_id tool b res status dur := by
  have hd : AuditLogger.hash_dict a = AuditLogger.hash_dict b := by
    unfold AuditLogger.hash_dict
    rw [h]
  refine ⟨hd, hash_dict_length a, ?_, rfl, rfl, ?_⟩
  · intro ch hch
    have hfull : ch ∈ sha256HexChars (dumpsCanon a) :=
      List.take_subset 8 _ hch
    exact hexDigestChars_mem _ _ hfull
  · simp [AuditLogger.log_tool_call, hd]

/-- Witness for C7, the spec's own scenario: the digest of args `{"a": 1}`
is the same across two `log_tool_call` invocations, is 8 characters long,
and is what the audit record stores as `args_hash`. -/
theorem C7_fingerprint_deterministic_witness :
    AuditLogger.hash_dict (Json.obj [("a", Json.num 1)])
      = AuditLogger.hash_dict (Json.obj [("a", Json.num 1)])
    ∧ (AuditLogger.hash_dict (Json.obj [("a", Json.num 1)])).length = 8
    ∧ (AuditLogger.log_tool_call 0 "agent1" "c1" "echo" (Json.obj [("a", Json.num 1)])
        (Json.obj []) "success" 0).args_hash
      = AuditLogger.hash_dict (Json.obj [("a", Json.num 1)])
    ∧ AuditLogger.log_tool_call 0 "agent1" "c1" "echo" (Json.obj [("a", Json.num 1)])
        (Json.obj []) "success" 0
      = AuditLogger.log_tool_call 0 "agent1" "c1" "echo" (Json.obj [("a", Json.num 1)])
        (Json.obj []) "success" 0 := by
  have h := C7_fingerprint_deterministic (Json.obj [("a", Json.num 1)])
    (Json.obj [("a", Json.num 1)]) rfl 0 "agent1" "c1" "echo" "success" (Json.obj []) 0
  exact ⟨h.1, h.2.1, h.2.2.2.1, h.2.2.2.2.2⟩

/-- A sample quota and engine for the C9 witness. -/
def quotaA : AgentQuota :=
  { agent_id := "a1", cpu_budget_ms := 60000, storage_quota_mb := 500,
    tool_rate_limits := [("capture_frame", 30), ("record_audio", 10), ("say", 20)],
    cpu_used_ms := 10, storage_used_mb := 5, last_reset := 0, tool_calls := [] }

def engineA : MultiagentEngine :=
  { quotas := [("a1", quotaA)], agents_online := ["a1"] }

/-- Witness for C9: recording a call with 2 MB of storage for agent `a1`
(whose quota holds 5 MB used) keeps its recorded storage at least 5 MB,
and the lazy reset at a due instant clears CPU and timestamps but not
storage. -/
theorem C9_storage_monotone_witness :
    (∃ q1, alookup "a1" (engineA.record_tool_call 100 "a1" "say" 1 2).quotas = some q1
      ∧ quotaA.storage_used_mb ≤ q1.storage_used_mb)
    ∧ (quotaA.reset_if_needed 100 60).storage_used_mb = quotaA.storage_used_mb
    ∧ (quotaA.reset_if_needed 100 60).cpu_used_ms = 0 := by
  have h := C9_storage_monotone
  refine ⟨h.2.2.1 engineA 100 "a1" "say" "a1" 1 2 quotaA rfl, (h.1 quotaA 100 60).1, ?_⟩
  exact ((h.1 quotaA 100 60).2.1 (by decide)).1

/-- C6: the Front-End replies to every message of a live connection — the
reply list is as long as the message list and the loop continues past any
bad message; unparseable input gets an `invalid_json` error reply, an
internal exception escaping the request handler gets `internal_error` with
the message, and a well-formed request with an unrecognized (or missing)
method gets `unknown_method`. -/
theorem C6_frontend_error_replies :
    (∀ (h : Scheduler → Request → Scheduler × Except String Json)
        (st : Scheduler) (msgs : List WireMsg),
      ((AgentBridge.handle_client h st msgs).2).length = msgs.length)
    ∧ (∀ (h : Scheduler → Request → Scheduler × Except String Json)
        (st : Scheduler) (m : WireMsg) (ms : List WireMsg),
      AgentBridge.handle_client h st (m :: ms)
        = ((AgentBridge.handle_client h (AgentBridge.processClientMsg h st m).1 ms).1,
           (AgentBridge.processClientMsg h st m).2
             :: (AgentBridge.handle_client h (AgentBridge.processClientMsg h st m).1 ms).2))
    ∧ (∀ (h : Scheduler → Request → Scheduler × Except String Json) (st : Scheduler),
      (AgentBridge.processClientMsg h st WireMsg.malformed).2.objGet "error"
        = some (Json.str "invalid_json"))
    ∧ (∀ (h : Scheduler → Request → Scheduler × Except String Json)
        (st st2 : Scheduler) (r : Request) (m : String),
      h st r = (st2, Except.error m) →
      (AgentBridge.processClientMsg h st (WireMsg.request r)).2
        = Json.obj [("error", Json.str "internal_error"), ("message", Json.str m)])
    ∧ (∀ (st : Scheduler) (now : Int) (agent_id : String) (r : Request) (m : String),
      r.method = some m →
      m ≠ "list_tools" → m ≠ "call_tool" → m ≠ "get_history" →
      m ≠ "get_tool_info" → m ≠ "ping" →
      (AgentBridge.handle_request st now agent_id r).2.objGet "error"
        = some (Json.str "unknown_method"))
    ∧ (∀ (st : Scheduler) (now : Int) (agent_id : String) (r : Request),
      r.method = none →
      (AgentBridge.handle_request st now agent_id r).2.objGet "error"
        = some (Json.str "unknown_method")) := by
  refine ⟨?_, ?_, ?_, ?_, ?_, ?_⟩
  · intro h st msgs
    induction msgs generalizing st with
    | nil => rfl
    | cons m ms ih => simp [AgentBridge.handle_client, ih]
  · intro h st m ms
    rfl
  · intro h st
    rfl
  · intro h st st2 r m hm
    simp [AgentBridge.processClientMsg, hm]
  · intro st now agent_id r m hm h1 h2 h3 h4 h5
    simp [AgentBridge.handle_request, hm, h1, h2, h3, h4, h5, Json.objGet, alookup]
  · intro st now agent_id r hm
    simp [AgentBridge.handle_request, hm, Json.objGet, alookup]

/-- A handler standing for a `_handle_request` call that raises. -/
def raisingHandler : Scheduler → Request → Scheduler × Except String Json :=
  fun st _ => (st, Except.error "boom")

/-- Witness for C6: a malformed message, an unknown method and a raising
handler each get their error reply, and a three-message connection gets
three replies. -/
theorem C6_frontend_error_replies_witness :
    ((AgentBridge.handle_client (AgentBridge.realHandler 0 "agent1") emptySched
        [WireMsg.malformed, WireMsg.request { method := some "frobnicate", params := none },
         WireMsg.request { method := some "ping", params := none }]).2).length = 3
    ∧ (AgentBridge.processClientMsg (AgentBridge.realHandler 0 "agent1") emptySched
        WireMsg.malformed).2.objGet "error" = some (Json.str "invalid_json")
    ∧ (AgentBridge.processClientMsg raisingHandler emptySched
        (WireMsg.request { method := some "ping", params := none })).2
      = Json.obj [("error", Json.str "internal_error"), ("message", Json.str "boom")]
    ∧ (AgentBridge.handle_request emptySched 0 "agent1"
        { method := some "frobnicate", params := none }).2.objGet "error"
      = some (Json.str "unknown_method") := by
  have h := C6_frontend_error_replies
  refine ⟨h.1 _ _ _, h.2.2.1 _ _, h.2.2.2.1 raisingHandler emptySched emptySched _ "boom" rfl, ?_⟩
  exact h.2.2.2.2.1 emptySched 0 "agent1" _ "frobnicate" rfl (by decide) (by decide)
    (by decide) (by decide) (by decide)

/-- Ledger events for the history scenarios. -/
def evA1 : Json := Json.obj [("agent_id", Json.str "A"), ("type", Json.str "tool_call")]

def evA2 : Json := Json.obj [("agent_id", Json.str "A"), ("type", Json.str "tool_result")]

def evB1 : Json := Json.obj [("agent_id", Json.str "B"), ("type", Json.str "tool_call")]

def histSched : Scheduler :=
  { tools := { tools := [] },
    world := { events := [evA1, evA2], max_events := 1000, call_id_counter := 0 },
    call_counter := 0, rate_limits := [] }

def mixedSched : Scheduler :=
  { tools := { tools := [] },
    world := { events := [evA1, evB1, evA2], max_events := 1000, call_id_counter := 0 },
    call_counter := 0, rate_limits := [] }

def paramsN (n : Int) : ReqParams :=
  { agent_id := none, call_id := none, tool := none, args := none, n := some n }

/-- Call parameters declaring agent `B` as caller identity (the permissive
override) for tool `ghost`. -/
def overrideParams : ReqParams :=
  { agent_id := some "B", call_id := some "c9", tool := some "ghost",
    args := none, n := none }

/-- C10 counterexample: at `n = 0` the Python slice `[-0:]` selects the
whole ring, so `get_history(0)` on a connection whose agent has two ring
events returns both — not a subset of the last 0 events overall (which is
empty), contradicting the claim's universal reading. -/
theorem C10_counterexample :
    (AgentBridge.handle_request histSched 0 "A"
        { method := some "get_history", params := some (paramsN 0) }).2
      = Json.obj [("result", Json.arr [evA1, evA2])]
    ∧ Json.arr [evA1, evA2]
      ≠ Json.arr ((histSched.world.events.drop (histSched.world.events.length - 0)).filter
          (fun e => isPyStrEq (e.objGet "agent_id") "A")) := by
  refine ⟨rfl, ?_⟩
  intro h
  simp at h

theorem pySliceLast_pos {α : Type} (n : Int) (xs : List α) (h : 0 < n) :
    pySliceLast n xs = xs.drop (xs.length - n.toNat) := by
  simp [pySliceLast, h]

/-- C10 as amended: for `n ≥ 1`, `get_history(n)` returns the
connection-derived agent's events among the last `n` ring events overall
(most recent n, then filtered) — not the agent's own last n (at `n = 0` the
Python slice `[-0:]` makes it the filter over the whole ring instead);
consequently it can return fewer than n events for the agent although the
ring holds at least n of them, and events of a call made under a
caller-declared agent_id override are not returned on the originating
connection. -/
theorem C10_get_history_filtered (st : Scheduler) (now : Int) (conn : String)
    (p : ReqParams) (n : Int) (hn : p.n = some n) (hpos : 1 ≤ n) :
    (AgentBridge.handle_request st now conn
        { method := some "get_history", params := some p }).2
      = Json.obj [("result", Json.arr
          ((st.world.events.drop (st.world.events.length - n.toNat)).filter
            (fun e => isPyStrEq (e.objGet "agent_id") conn)))]
    ∧ ((AgentBridge.handle_request mixedSched 0 "A"
          { method := some "get_history", params := some (paramsN 2) }).2
        = Json.obj [("result", Json.arr [evA2])]
      ∧ (mixedSched.world.events.filter
          (fun e => isPyStrEq (e.objGet "agent_id") "A")).length = 2)
    ∧ (AgentBridge.handle_request
        (AgentBridge.handle_request emptySched 0 "A"
          { method := some "call_tool", params := some overrideParams }).1
        0 "A" { method := some "get_history", params := some (paramsN 10) }).2
      = Json.obj [("result", Json.arr [])] := by
  refine ⟨?_, ⟨rfl, rfl⟩, rfl⟩
  simp only [AgentBridge.handle_request, WorldModel.get_events_for_agent]
  rw [show (({ method := some "get_history", params := some p } : Request).params.getD
      defaultParams).n.getD 10 = n by simp [hn]]
  rw [pySliceLast_pos n st.world.events (by omega)]
  simp

/-- Witness for the amended C10 on the mixed ring: with `n = 2` the last two
ring events are one of agent B and one of agent A, so connection A gets one
event back although it owns two in the ring. -/
theorem C10_get_history_filtered_witness :
    (AgentBridge.handle_request mixedSched 0 "A"
        { method := some "get_history", params := some (paramsN 2) }).2
      = Json.obj [("result", Json.arr
          ((mixedSched.world.events.drop (mixedSched.world.events.length - (2:Int).toNat)).filter
            (fun e => isPyStrEq (e.objGet "agent_id") "A")))] :=
  (C10_get_history_filtered mixedSched 0 "A" (paramsN 2) 2 rfl (by decide)).1

end ANSE
